import Mathlib

/-!
Verification of the resilient data-fetch layer of the p2pool-mini-observer
dashboard, as a shallow embedding in Lean 4.

The embedding translates, from the TypeScript source:

* the retry engine of `src/lib/p2pool-api.ts` (`RetryConfig`,
  `DEFAULT_RETRY_CONFIG`, `calculateDelay`, `fetchWithRetry`), with one HTTP
  attempt modelled as an abstract outcome supplied by a responder function and
  the loop run on explicit fuel (`maxRetries + 1` iterations, exactly the
  bound of the source loop);
* the miner-scoped reconstruction loops (`getMinerShares` historical path and
  `getMinerFoundBlocks`), which the source duplicates for shares and found
  blocks; here one parametric loop is instantiated twice with the record
  accessors and batch-size formulas of each copy;
* the IndexedDB-backed storage layer of `src/lib/storage.ts` (`ensureReady`,
  `store`, `storeShares`, the `cleanup` cursor loop and its partition
  iteration — including the unreassigned-cursor throw that ends a run after
  the first partition with a deletion — and `getSharesByMiner`), with the
  object store modelled as an association list keyed by the string id and
  `put` as an upsert;
* the orchestrator fallback paths of `src/components/p2pool-dashboard.tsx`
  (the pool-info query function and the `lastUpdate` aggregation), with the
  react-query state update modelled explicitly: a query that resolves sets
  `data` and stamps `dataUpdatedAt` with the resolution time and clears
  `error`; a query that rejects sets `error` and leaves `data` and
  `dataUpdatedAt` unchanged.

Numbers that the source manipulates as JavaScript numbers are modelled as
`Nat` (attempt counters, heights, delays, which stay small and non-negative)
or `Int` (timestamps, which the source subtracts).
-/

namespace P2Pool

/-! ## String.includes, as used by the default retry predicate -/

/-- Prefix test on character lists: does the first list start the second?
Helper for the substring test below. -/
def charsLeadsWith : List Char → List Char → Bool
  | [], _ => true
  | _ :: _, [] => false
  | n :: ns, h :: hs => n == h && charsLeadsWith ns hs

/-- Substring test on character lists: does the second list occur as a
contiguous run inside the first? -/
def charsContains : List Char → List Char → Bool
  | [], needle => needle.isEmpty
  | h :: hs, needle => charsLeadsWith needle (h :: hs) || charsContains hs needle

/-- JavaScript `s.includes(sub)`. -/
def strIncludes (s sub : String) : Bool :=
  charsContains s.toList sub.toList

/-! ## Retry configuration (src/lib/p2pool-api.ts, RetryConfig) -/

/-- The retry configuration interface. `retryCondition` is optional, as in
the source. -/
structure RetryConfig where
  maxRetries : Nat
  baseDelay : Nat
  maxDelay : Nat
  backoffMultiplier : Nat
  retryCondition : Option (String → Bool)

/-- The default retry predicate: retry when the error message mentions
fetch, timeout, AbortError, or contains the character 5 (intended to match
5xx status codes). -/
def defaultRetryCondition (msg : String) : Bool :=
  strIncludes msg "fetch" || strIncludes msg "timeout" ||
    strIncludes msg "AbortError" || strIncludes msg "5"

/-- DEFAULT_RETRY_CONFIG of the source: 3 retries, 1s base delay, 10s cap,
multiplier 2, with the default retry predicate. -/
def DEFAULT_RETRY_CONFIG : RetryConfig :=
  { maxRetries := 3
    baseDelay := 1000
    maxDelay := 10000
    backoffMultiplier := 2
    retryCondition := some defaultRetryCondition }

/-- calculateDelay of the source:
`min(baseDelay * backoffMultiplier ** (attempt - 1), maxDelay)`. -/
def calculateDelay (attempt : Nat) (config : RetryConfig) : Nat :=
  let delay := config.baseDelay * config.backoffMultiplier ^ (attempt - 1)
  min delay config.maxDelay

/-! ## One fetch attempt and the retry loop (fetchWithRetry) -/

/-- What a single HTTP attempt produced: a 2xx response (`ok`), a non-2xx
response with its status code and status text, or a thrown error (timeout,
abort, network failure) with its message. -/
inductive AttemptOutcome where
  | ok
  | http (status : Nat) (statusText : String)
  | thrown (message : String)

/-- The error message the catch block of fetchWithRetry sees for a failed
attempt (`none` when the attempt succeeded). A non-2xx response becomes
an Error with message `HTTP <status>: <statusText>`; a thrown error keeps
its message. -/
def failureMessage : AttemptOutcome → Option String
  | AttemptOutcome.ok => none
  | AttemptOutcome.http status statusText =>
      some ("HTTP " ++ toString status ++ ": " ++ statusText)
  | AttemptOutcome.thrown message => some message

/-- The retry predicate applied to an error message:
`!retryConfig.retryCondition || retryConfig.retryCondition(lastError)`. -/
def retryCondB (cfg : RetryConfig) (msg : String) : Bool :=
  match cfg.retryCondition with
  | none => true
  | some p => p msg

/-- The shouldRetry test of the catch block:
`attempt <= retryConfig.maxRetries && (retry predicate accepts the error)`. -/
def shouldRetryB (cfg : RetryConfig) (attempt : Nat) (msg : String) : Bool :=
  decide (attempt ≤ cfg.maxRetries) && retryCondB cfg msg

/-- Does this attempt outcome count as a retryable failure under `cfg`?
True exactly when the attempt failed and the retry predicate accepts its
error message. -/
def isRetryableFailure (cfg : RetryConfig) (o : AttemptOutcome) : Bool :=
  match failureMessage o with
  | none => false
  | some msg => retryCondB cfg msg

/-- The observable trace of one fetchWithRetry call: how many attempts were
performed, the backoff delays slept between attempts (in order), and the
final result (success, or the terminal error message thrown). -/
structure FetchTrace where
  attempts : Nat
  delays : List Nat
  result : Except String Unit

/-- The body of fetchWithRetry: `for (attempt = 1; attempt <= maxRetries + 1;
attempt++)`. `fuel` is the number of loop iterations remaining (the source
bound makes it `maxRetries + 1` at the start); `attempt` is the 1-indexed
attempt counter; `delaysRev` accumulates the delays slept so far (reversed);
`lastError` is the last caught error. Exhausting the fuel corresponds to
falling out of the loop (`throw lastError || new Error('Maximum retries
exceeded')`), which the source notes should never be reached. -/
def fetchLoop (cfg : RetryConfig) (responder : Nat → AttemptOutcome) :
    Nat → Nat → List Nat → Option String → FetchTrace
  | 0, attempt, delaysRev, lastError =>
      { attempts := attempt - 1
        delays := delaysRev.reverse
        result := Except.error (lastError.getD "Maximum retries exceeded") }
  | fuel + 1, attempt, delaysRev, _lastError =>
      match failureMessage (responder attempt) with
      | none =>
          { attempts := attempt
            delays := delaysRev.reverse
            result := Except.ok () }
      | some msg =>
          if shouldRetryB cfg attempt msg then
            fetchLoop cfg responder fuel (attempt + 1)
              (calculateDelay attempt cfg :: delaysRev) (some msg)
          else
            { attempts := attempt
              delays := delaysRev.reverse
              result := Except.error msg }

/-- fetchWithRetry: run the attempt loop from attempt 1 with the source's
iteration bound `maxRetries + 1`. The `responder` supplies what each
numbered HTTP attempt returns (the environment of the call). -/
def fetchWithRetry (cfg : RetryConfig) (responder : Nat → AttemptOutcome) :
    FetchTrace :=
  fetchLoop cfg responder (cfg.maxRetries + 1) 1 [] none

/-! ## Records returned by the bulk endpoints

Only the fields the reconstruction loops and the storage layer read are
kept. `FoundBlock.main_height` and `FoundBlock.main_id` stand for the
nested `main_block.height` and `main_block.id` of the source interface. -/

/-- A sidechain share (SideBlock), restricted to the fields the loops use. -/
structure Share where
  side_height : Nat
  template_id : String
  miner_address : String
deriving DecidableEq

/-- A found mainchain block, restricted to the fields the loops use. -/
structure FoundBlock where
  main_height : Nat
  main_id : String
  miner_address : String
deriving DecidableEq

/-! ## Miner-scoped reconstruction (getMinerShares historical path and
getMinerFoundBlocks)

The source spells the same loop out twice, once over shares and once over
found blocks; here it is written once, parametrised by the three record
accessors (height, natural key, miner address) and the batch-size formula,
and instantiated twice below. -/

/-- The record accessors a reconstruction loop reads: the height compared
against the cursor, the natural key used for deduplication, and the miner
address used for client-side filtering. -/
structure RecordOps (α : Type) where
  heightOf : α → Nat
  keyOf : α → String
  minerOf : α → String

/-- Running state of the reconstruction loop: the records accumulated so far
(allMinerShares / allMinerBlocks), the current height cursor
(currentFromHeight; `none` is JavaScript `undefined`), and the attempt
counter. -/
structure MinerLoopState (α : Type) where
  acc : List α
  cursor : Option Nat
  attempts : Nat
deriving DecidableEq

/-- Outcome of one loop iteration: continue with a new state, break with a
final state, or abort because the batch fetch threw (the exception
propagates out of the while loop to the surrounding catch). -/
inductive StepOutcome (α : Type) where
  | next (st : MinerLoopState α)
  | halt (st : MinerLoopState α)
  | failed
deriving DecidableEq

/-- Batch size of the shares loop:
`Math.min(500 + (attempts * 200), 1000)`. -/
def sharesBatchSize (attempts : Nat) : Nat :=
  min (500 + attempts * 200) 1000

/-- Batch size of the found-blocks loop:
`Math.min(200 + (attempts * 100), 500)`. -/
def blocksBatchSize (attempts : Nat) : Nat :=
  min (200 + attempts * 100) 500

/-- Minimum height over a batch:
`Math.min(...allShares.map(share => share.side_height))`. The source only
evaluates this on a non-empty batch (an empty batch breaks the loop
earlier), so the value returned for `[]` is never reached. -/
def minHeightOf (ops : RecordOps α) : List α → Nat
  | [] => 0
  | r :: rest => rest.foldl (fun m x => min m (ops.heightOf x)) (ops.heightOf r)

/-- Client-side filtering of a fetched batch: keep the records of the target
miner, and when a cursor height is set, keep only records strictly below
it. -/
def filterForMiner (ops : RecordOps α) (address : String) (cursor : Option Nat)
    (batch : List α) : List α :=
  let filtered := batch.filter (fun r => decide (ops.minerOf r = address))
  match cursor with
  | none => filtered
  | some c => filtered.filter (fun r => decide (ops.heightOf r < c))

/-- Append the filtered records to the accumulator, skipping any whose
natural key is already present (the deduplication push loop). -/
def addNewRecords (ops : RecordOps α) (acc newRecords : List α) : List α :=
  newRecords.foldl
    (fun a r =>
      if a.any (fun existing => decide (ops.keyOf existing = ops.keyOf r)) then a
      else a ++ [r])
    acc

/-- Does the cursor advance to batch minimum `m`?
`currentFromHeight === undefined || minHeight < currentFromHeight`. -/
def cursorAdvances (cursor : Option Nat) (m : Nat) : Bool :=
  match cursor with
  | none => true
  | some c => decide (m < c)

/-- End of the loop body: `if (allMinerShares.length >= limit) break`. -/
def finishIteration (st : MinerLoopState α) (limit : Nat) : StepOutcome α :=
  if limit ≤ st.acc.length then StepOutcome.halt st else StepOutcome.next st

/-- One iteration of the reconstruction loop, including the loop condition
`allMinerShares.length < limit && attempts < maxAttempts` (maxAttempts = 5)
checked at entry. The `fetcher` maps (attempt number, batch size) to the
upstream bulk response, `Except.error` standing for a fetch that threw. -/
def minerFetchStep (ops : RecordOps α) (batchSizeOf : Nat → Nat)
    (fetcher : Nat → Nat → Except Unit (List α)) (address : String)
    (limit : Nat) (st : MinerLoopState α) : StepOutcome α :=
  if st.acc.length < limit ∧ st.attempts < 5 then
    let attempts := st.attempts + 1
    match fetcher attempts (batchSizeOf attempts) with
    | Except.error _ => StepOutcome.failed
    | Except.ok batch =>
      if batch.isEmpty then StepOutcome.halt { st with attempts := attempts }
      else
        let filtered := filterForMiner ops address st.cursor batch
        let acc := addNewRecords ops st.acc filtered
        if 0 < filtered.length ∧ acc.length < limit then
          let m := minHeightOf ops batch
          if cursorAdvances st.cursor m then
            finishIteration { acc := acc, cursor := some m, attempts := attempts } limit
          else
            StepOutcome.halt { acc := acc, cursor := st.cursor, attempts := attempts }
        else if filtered.isEmpty then
          let m := minHeightOf ops batch
          if cursorAdvances st.cursor m then
            finishIteration { acc := acc, cursor := some m, attempts := attempts } limit
          else
            StepOutcome.halt { acc := acc, cursor := st.cursor, attempts := attempts }
        else
          finishIteration { acc := acc, cursor := st.cursor, attempts := attempts } limit
  else StepOutcome.halt st

/-- The while loop, on fuel. The attempt counter rises by one on every
`next`, and the entry condition stops the loop once it reaches 5, so fuel 6
is never exhausted; `failed` returns the state reached before the failing
iteration together with the failure flag. -/
def runMinerLoop (ops : RecordOps α) (batchSizeOf : Nat → Nat)
    (fetcher : Nat → Nat → Except Unit (List α)) (address : String)
    (limit : Nat) : Nat → MinerLoopState α → MinerLoopState α × Bool
  | 0, st => (st, false)
  | fuel + 1, st =>
    match minerFetchStep ops batchSizeOf fetcher address limit st with
    | StepOutcome.next st' => runMinerLoop ops batchSizeOf fetcher address limit fuel st'
    | StepOutcome.halt st' => (st', false)
    | StepOutcome.failed => (st, true)

/-- Insert a record into a list sorted descending by height, keeping equal
heights in their existing order. -/
def insertDescBy (heightOf : α → Nat) (r : α) : List α → List α
  | [] => [r]
  | x :: xs =>
      if heightOf x < heightOf r then r :: x :: xs
      else x :: insertDescBy heightOf r xs

/-- Sort a list descending by height
(`sort((a, b) => b.side_height - a.side_height)`). -/
def sortDescBy (heightOf : α → Nat) : List α → List α
  | [] => []
  | x :: xs => insertDescBy heightOf x (sortDescBy heightOf xs)

/-- The whole reconstruction operation: run the loop from an empty
accumulator, the supplied starting cursor and attempt counter 0; on a batch
fetch failure the surrounding catch returns `[]`, discarding the
accumulator; otherwise sort descending by height and truncate to the
requested limit. -/
def reconstructMinerRecords (ops : RecordOps α) (batchSizeOf : Nat → Nat)
    (fetcher : Nat → Nat → Except Unit (List α)) (address : String)
    (limit : Nat) (fromHeight : Option Nat) : List α :=
  let run := runMinerLoop ops batchSizeOf fetcher address limit 6
    { acc := [], cursor := fromHeight, attempts := 0 }
  if run.2 then [] else (sortDescBy ops.heightOf run.1.acc).take limit

/-- Accessors of the shares loop: side_height, template_id (dedup key),
miner_address. -/
def shareOps : RecordOps Share :=
  { heightOf := Share.side_height
    keyOf := Share.template_id
    minerOf := Share.miner_address }

/-- Accessors of the found-blocks loop: main_block.height, main_block.id
(dedup key), miner_address. -/
def blockOps : RecordOps FoundBlock :=
  { heightOf := FoundBlock.main_height
    keyOf := FoundBlock.main_id
    minerOf := FoundBlock.miner_address }

/-- getMinerShares, historical path (`fromHeight` supplied): the
reconstruction loop over shares. The direct path (`fromHeight` absent)
delegates to getMinerSharesDirect and is not part of this loop. -/
def getMinerSharesHistorical (fetcher : Nat → Nat → Except Unit (List Share))
    (address : String) (limit fromHeight : Nat) : List Share :=
  reconstructMinerRecords shareOps sharesBatchSize fetcher address limit (some fromHeight)

/-- getMinerFoundBlocks: the reconstruction loop over found blocks (this
function always runs the loop; its cursor may start undefined). -/
def getMinerFoundBlocks (fetcher : Nat → Nat → Except Unit (List FoundBlock))
    (address : String) (limit : Nat) (fromHeight : Option Nat) : List FoundBlock :=
  reconstructMinerRecords blockOps blocksBatchSize fetcher address limit fromHeight

/-! ## The IndexedDB-backed storage layer (src/lib/storage.ts)

An object store is modelled as an association list from the string id
(the keyPath) to the stored record; IndexedDB `put` is an upsert on that
key. The database handle is `Option Unit`: `none` models `this.db === null`
(IndexedDB unavailable, or `openDB` failed), `some ()` a ready database.
Timestamps are `Int` milliseconds, as `Date.now()` values the source
subtracts from. -/

/-- StoredData of the source: the id (dedup key), the wrapped record, the
write timestamp and the last-access timestamp. -/
structure StoredData (α : Type) where
  id : String
  data : α
  timestamp : Int
  lastAccessed : Int
deriving DecidableEq

/-- IndexedDB `put` on a store with unique keys: replace the entry holding
this key, or append the new entry when the key is absent. -/
def idbPut : List (String × β) → String → β → List (String × β)
  | [], key, v => [(key, v)]
  | kv :: rest, key, v =>
      if kv.1 = key then (key, v) :: rest else kv :: idbPut rest key v

/-- Lookup by key in an object store. -/
def lookupKey : List (String × β) → String → Option β
  | [], _ => none
  | kv :: rest, key => if kv.1 = key then some kv.2 else lookupKey rest key

/-- How many entries of the store hold this key. -/
def countKey (st : List (String × β)) (key : String) : Nat :=
  (st.filter (fun kv => decide (kv.1 = key))).length

/-- ensureReady of the source: after awaiting the init promise it throws
`Storage not initialized` when `this.db` is still null. -/
def ensureReady (db : Option Unit) : Except String Unit :=
  match db with
  | some _ => Except.ok ()
  | none => Except.error "Storage not initialized"

/-- The private generic `store(storeName, key, data)` method: await
ensureReady (which throws when the database is unavailable), then the
`if (!this.db) return` guard, then a `put` of a fresh StoredData with both
timestamps set to now. The guard after ensureReady is unreachable when the
database is null, since ensureReady has already thrown. -/
def store (db : Option Unit) (st : List (String × StoredData α)) (key : String)
    (v : α) (now : Int) : Except String (List (String × StoredData α)) :=
  match ensureReady db with
  | Except.error e => Except.error e
  | Except.ok _ =>
    match db with
    | none => Except.ok st
    | some _ =>
        Except.ok (idbPut st key
          { id := key, data := v, timestamp := now, lastAccessed := now })

/-- storeMinerInfo: a put under the key `miner_<apiUrl>_<address>`, with no
guard of its own around the generic store. -/
def storeMinerInfo (db : Option Unit) (st : List (String × StoredData α))
    (apiUrl address : String) (v : α) (now : Int) :
    Except String (List (String × StoredData α)) :=
  store db st ("miner_" ++ apiUrl ++ "_" ++ address) v now

/-- The dedup key of a stored share:
`share_<apiUrl>_<side_height>_<template_id>`. -/
def shareKey (apiUrl : String) (s : Share) : String :=
  "share_" ++ apiUrl ++ "_" ++ toString s.side_height ++ "_" ++ s.template_id

/-- The StoredData wrapper storeShares builds for one share. -/
def shareEntry (apiUrl : String) (s : Share) (now : Int) : StoredData Share :=
  { id := shareKey apiUrl s, data := s, timestamp := now, lastAccessed := now }

/-- storeShares: ensureReady, the `if (!this.db || shares.length === 0)
return` guard, then one `put` per share under its dedup key, in input
order, within one transaction. -/
def storeShares (db : Option Unit) (apiUrl : String) (shares : List Share)
    (now : Int) (st : List (String × StoredData Share)) :
    Except String (List (String × StoredData Share)) :=
  match ensureReady db with
  | Except.error e => Except.error e
  | Except.ok _ =>
    match db with
    | none => Except.ok st
    | some _ =>
        if shares.isEmpty then Except.ok st
        else
          Except.ok (shares.foldl
            (fun acc s => idbPut acc (shareKey apiUrl s) (shareEntry apiUrl s now)) st)

/-- The six named object stores of the database. -/
inductive Partition where
  | poolInfo
  | minerInfo
  | shares
  | blocks
  | payouts
  | metadata
deriving DecidableEq

/-- RETENTION_PERIODS of the source, in milliseconds. The source object has
no entry for the metadata store (cleanup skips metadata before looking the
period up), so the value returned for `metadata` is never used. -/
def RETENTION_PERIODS : Partition → Int
  | Partition.poolInfo => 24 * 60 * 60 * 1000
  | Partition.minerInfo => 7 * 24 * 60 * 60 * 1000
  | Partition.shares => 30 * 24 * 60 * 60 * 1000
  | Partition.blocks => 365 * 24 * 60 * 60 * 1000
  | Partition.payouts => 365 * 24 * 60 * 60 * 1000
  | Partition.metadata => 0

/-- The cursor loop of cleanup() over one object store, with the source's
unreassigned cursor. The `timestamp` index is opened over
`IDBKeyRange.upperBound(now - retentionPeriod)` — an inclusive upper bound,
so the range holds exactly the entries with write timestamp at or before
the cutoff. `openCursor` returns null when the range is empty, and the
while loop is skipped. Otherwise `while (cursor)` deletes the in-range
entries one by one; `await cursor.continue()` advances the idb proxy in
place, the `cursor` variable is never reassigned and stays truthy, so after
the last in-range entry is deleted the loop re-enters and `cursor.delete()`
on the finished cursor throws an InvalidStateError. The deletions already
requested are committed (the transaction is not aborted by the synchronous
throw). Returns the remaining entries and whether the loop threw: it throws
exactly when it deleted at least one entry. -/
def cleanupCursorLoop (now : Int) (p : Partition)
    (entries : List (String × StoredData α)) :
    List (String × StoredData α) × Bool :=
  let cutoff := now - RETENTION_PERIODS p
  (entries.filter (fun kv => decide (cutoff < kv.2.timestamp)),
    entries.any (fun kv => decide (kv.2.timestamp ≤ cutoff)))

/-- Replace one partition's entry list, leaving the other partitions as
they are. -/
def setStore (st : Partition → List (String × StoredData α)) (p : Partition)
    (l : List (String × StoredData α)) :
    Partition → List (String × StoredData α) :=
  fun q => if q = p then l else st q

/-- The for loop of cleanup() over `Object.entries(STORES)`: the metadata
store is skipped (`continue`); every other store runs the cursor loop; when
that loop threw, the InvalidStateError propagates out of the for loop to
cleanup's catch, which swallows it — so the run ends there and the
partitions not yet reached keep all their entries. (The metadata 'global'
bookkeeping entry is only rewritten after the loop, on a run in which no
partition deleted anything; it touches only the metadata store and is not
modelled. ensureReady precedes the loop and rejects when the database is
unavailable, as settled under C9; the loop below models a ready
database.) -/
def cleanupLoop (now : Int) :
    List Partition → (Partition → List (String × StoredData α)) →
      Partition → List (String × StoredData α)
  | [], st => st
  | p :: rest, st =>
    if p = Partition.metadata then cleanupLoop now rest st
    else
      let r := cleanupCursorLoop now p (st p)
      let st' := setStore st p r.1
      if r.2 then st' else cleanupLoop now rest st'

/-- The iteration order of `Object.entries(STORES)`: the declaration order
of the STORES object. -/
def STORES_ORDER : List Partition :=
  [Partition.poolInfo, Partition.minerInfo, Partition.shares,
    Partition.blocks, Partition.payouts, Partition.metadata]

/-- One cleanup() run over the whole database. -/
def cleanup (now : Int) (st : Partition → List (String × StoredData α)) :
    Partition → List (String × StoredData α) :=
  cleanupLoop now STORES_ORDER st

/-- The indexes created on the shares object store by the schema upgrade:
`timestamp` and `apiUrl` only. -/
def sharesStoreIndexes : List String :=
  ["timestamp", "apiUrl"]

/-- Opening a named index on an object store: IndexedDB throws a
NotFoundError when the schema declares no index of that name. -/
def openIndex (indexes : List String) (name : String) : Except String Unit :=
  if name ∈ indexes then Except.ok ()
  else Except.error ("NotFoundError: no index named " ++ name)

/-- Is an Except a success? -/
def exceptIsOk : Except ε α → Bool
  | Except.ok _ => true
  | Except.error _ => false

/-- getSharesByMiner: ensureReady, the dead `if (!this.db) return []` guard,
then `index('miner_address')` on the shares store — which throws, since the
schema above created no such index — and only then the range query. The
success payload is never built, so it is rendered as the empty list. -/
def getSharesByMiner (db : Option Unit) (st : List (String × StoredData Share))
    (apiUrl address : String) (limit : Nat) : Except String (List Share) :=
  match ensureReady db with
  | Except.error e => Except.error e
  | Except.ok _ =>
    match db with
    | none => Except.ok []
    | some _ =>
      match openIndex sharesStoreIndexes "miner_address" with
      | Except.error e => Except.error e
      | Except.ok _ => Except.ok []

/-- The catch block of the minerSharesQuery query function: on a fetch
failure, read the cache with getSharesByMiner; return the cached shares
when there are some, otherwise rethrow the original fetch error. An error
thrown by getSharesByMiner itself propagates out of the catch block. -/
def minerSharesFallback (db : Option Unit) (st : List (String × StoredData Share))
    (apiUrl address : String) (limit : Nat) (fetchError : String) :
    Except String (List Share) :=
  match getSharesByMiner db st apiUrl address limit with
  | Except.error e => Except.error e
  | Except.ok cached =>
      if cached.isEmpty then Except.error fetchError else Except.ok cached

/-! ## The orchestrator pool-info query and lastUpdate
(src/components/p2pool-dashboard.tsx)

`QueryState` and `applyQueryOutcome` model the @tanstack/react-query
bookkeeping the hook reads: when a query function resolves, the query
stores the value in `data`, stamps `dataUpdatedAt` with the resolution
time and clears `error`; when it rejects, the query records the error and
leaves `data` and `dataUpdatedAt` untouched. The cache is the stored
PoolSnapshot together with its write timestamp; the query function only
ever receives the data field (the storage layer drops the timestamp on
retrieve). -/

/-- The per-query state the hook reads: `data`, `dataUpdatedAt` (0 before
the first success) and `error`. -/
structure QueryState (α : Type) where
  data : Option α
  dataUpdatedAt : Int
  error : Option String
deriving DecidableEq

/-- The react-query update applied when the query function settles at time
`now`. -/
def applyQueryOutcome (st : QueryState α) (outcome : Except String α)
    (now : Int) : QueryState α :=
  match outcome with
  | Except.ok d => { data := some d, dataUpdatedAt := now, error := none }
  | Except.error e => { st with error := some e }

/-- The pool-info query function: try the network fetch; on success write
through to the cache (fresh write timestamp) and return the data; on
failure read the cache and return the cached snapshot when one exists,
rethrowing the fetch error otherwise. Returns the settled result and the
cache state after the call. -/
def runPoolInfoQuery (fetchResult : Except String α) (cache : Option (α × Int))
    (now : Int) : Except String α × Option (α × Int) :=
  match fetchResult with
  | Except.ok d => (Except.ok d, some (d, now))
  | Except.error e =>
    match cache with
    | some (c, w) => (Except.ok c, some (c, w))
    | none => (Except.error e, none)

/-- One refresh of the pool-info entity: run the query function at time
`now` and apply the react-query update to the query state. -/
def refreshPoolInfo (fetchResult : Except String α) (cache : Option (α × Int))
    (now : Int) (st : QueryState α) : QueryState α × Option (α × Int) :=
  let r := runPoolInfoQuery fetchResult cache now
  (applyQueryOutcome st r.1 now, r.2)

/-- The lastUpdate aggregation of the hook: drop the zero (falsy)
dataUpdatedAt values of queries that never succeeded, and return the
maximum of the rest, or `none` when every query is untouched. -/
def lastUpdateOf (times : List Int) : Option Int :=
  match times.filter (fun t => t != 0) with
  | [] => none
  | t :: rest => some (rest.foldl max t)

/-- The error aggregation of the hook: the first error among the tracked
queries, `none` when every query is clean. -/
def firstErrorOf (errors : List (Option String)) : Option String :=
  match errors.filterMap id with
  | [] => none
  | e :: _ => some e

/-! ## Concrete fixtures used by witnesses and counterexamples -/

/-- An endpoint that answers HTTP 503 on every attempt. -/
def resp503 : Nat → AttemptOutcome :=
  fun _ => AttemptOutcome.http 503 "Service Unavailable"

/-- An endpoint that answers HTTP 405 on every attempt. -/
def resp405 : Nat → AttemptOutcome :=
  fun _ => AttemptOutcome.http 405 "Method Not Allowed"

/-- An endpoint that answers HTTP 404 on every attempt. -/
def resp404 : Nat → AttemptOutcome :=
  fun _ => AttemptOutcome.http 404 "Not Found"

/-- A share of miner M at height 100, matched by the first batch of
`cexFetcher` below. -/
def cexShare : Share :=
  { side_height := 100, template_id := "t100", miner_address := "M" }

/-- An upstream whose first bulk call succeeds with one share of miner M
and whose second call throws. -/
def cexFetcher : Nat → Nat → Except Unit (List Share) :=
  fun attempt _ => if attempt = 1 then Except.ok [cexShare] else Except.error ()

/-- An upstream whose every bulk call throws. -/
def failFetcher : Nat → Nat → Except Unit (List Share) :=
  fun _ _ => Except.error ()

/-- A share of miner B at height 50, below the cursor of the C4 witness
scenario. -/
def wShare : Share :=
  { side_height := 50, template_id := "t50", miner_address := "B" }

/-- An upstream whose every bulk call returns the single share `wShare`. -/
def wFetcher : Nat → Nat → Except Unit (List Share) :=
  fun _ _ => Except.ok [wShare]

/-- A pool-info query state that last succeeded at time 100 with value 7. -/
def qsPool : QueryState Nat :=
  { data := some 7, dataUpdatedAt := 100, error := none }

/-- First share of the C7 witness: key share_u_100_t. -/
def s1w : Share :=
  { side_height := 100, template_id := "t", miner_address := "A" }

/-- Second share of the C7 witness: the same dedup key as `s1w` but
different payload. -/
def s2w : Share :=
  { side_height := 100, template_id := "t", miner_address := "B" }

/-- A stored entry written at timestamp 0, exactly 30 days before the
cleanup instant of the C8 counterexample. -/
def boundaryEntry : StoredData Nat :=
  { id := "k", data := 0, timestamp := 0, lastAccessed := 0 }

/-- A stored entry written 31 days before the cleanup instant
100 * 86400000. -/
def entry31 : StoredData Nat :=
  { id := "a", data := 0, timestamp := 69 * 86400000, lastAccessed := 69 * 86400000 }

/-- A stored entry written 29 days before the cleanup instant
100 * 86400000. -/
def entry29 : StoredData Nat :=
  { id := "b", data := 0, timestamp := 71 * 86400000, lastAccessed := 71 * 86400000 }

/-- A pool-info entry written at timestamp 0, long expired under the 1-day
pool-info retention at the cleanup instant 100 * 86400000. -/
def expiredPoolEntry : StoredData Nat :=
  { id := "p", data := 0, timestamp := 0, lastAccessed := 0 }

/-- A database holding one expired pool-info entry together with the
31-day-old and 29-day-old shares entries (every other partition empty). -/
def cexStores : Partition → List (String × StoredData Nat) :=
  fun p =>
    match p with
    | Partition.poolInfo => [("p", expiredPoolEntry)]
    | Partition.shares => [("a", entry31), ("b", entry29)]
    | _ => []

/-- A database whose only entries are the 31-day-old and 29-day-old shares
entries (every partition before shares is empty, so a cleanup run reaches
the shares store). -/
def sharesOnlyStores : Partition → List (String × StoredData Nat) :=
  fun p =>
    match p with
    | Partition.shares => [("a", entry31), ("b", entry29)]
    | _ => []

/-! ## Lemmas about the retry loop -/

/-- A retryable failure yields an error message the retry predicate
accepts. -/
theorem isRetryable_elim (cfg : RetryConfig) (o : AttemptOutcome)
    (h : isRetryableFailure cfg o = true) :
    ∃ msg, failureMessage o = some msg ∧ retryCondB cfg msg = true := by
  unfold isRetryableFailure at h
  cases hf : failureMessage o with
  | none => rw [hf] at h; simp at h
  | some msg => rw [hf] at h; exact ⟨msg, rfl, h⟩

/-- When every attempt fails retryably, the loop runs its full budget: with
`attempt + fuel = maxRetries + 2` it performs attempts up to
`maxRetries + 1`, sleeps the backoff delays of attempts
`attempt, …, maxRetries` after the already accumulated ones, and ends in a
terminal error. -/
theorem fetchLoop_allFail (cfg : RetryConfig) (responder : Nat → AttemptOutcome)
    (hfail : ∀ n, isRetryableFailure cfg (responder n) = true) :
    ∀ fuel attempt delaysRev lastErr, 1 ≤ fuel →
      attempt + fuel = cfg.maxRetries + 2 →
      (fetchLoop cfg responder fuel attempt delaysRev lastErr).attempts = cfg.maxRetries + 1 ∧
      (fetchLoop cfg responder fuel attempt delaysRev lastErr).delays =
        delaysRev.reverse ++
          (List.range' attempt (fuel - 1)).map (fun i => calculateDelay i cfg) ∧
      ∃ e, (fetchLoop cfg responder fuel attempt delaysRev lastErr).result = Except.error e := by
  intro fuel
  induction fuel with
  | zero => intro attempt delaysRev lastErr h1 _; omega
  | succ n ih =>
    intro attempt delaysRev lastErr _ hsum
    obtain ⟨msg, hmsg, hcond⟩ := isRetryable_elim cfg (responder attempt) (hfail attempt)
    cases n with
    | zero =>
      have ha : attempt = cfg.maxRetries + 1 := by omega
      subst ha
      have hnr : shouldRetryB cfg (cfg.maxRetries + 1) msg = false := by
        simp [shouldRetryB]
      refine ⟨?_, ?_, msg, ?_⟩ <;> simp [fetchLoop, hmsg, hnr]
    | succ m =>
      have hle : attempt ≤ cfg.maxRetries := by omega
      have hr : shouldRetryB cfg attempt msg = true := by
        simp [shouldRetryB, hle, hcond]
      have hstep : fetchLoop cfg responder (m + 1 + 1) attempt delaysRev lastErr =
          fetchLoop cfg responder (m + 1) (attempt + 1)
            (calculateDelay attempt cfg :: delaysRev) (some msg) := by
        simp [fetchLoop, hmsg, hr]
      have key := ih (attempt + 1) (calculateDelay attempt cfg :: delaysRev)
        (some msg) (by omega) (by omega)
      rw [hstep]
      refine ⟨key.1, ?_, key.2.2⟩
      rw [key.2.1]
      simp [List.range'_succ, List.reverse_cons, List.append_assoc]

/-- The loop never performs more attempts than it has fuel for. -/
theorem fetchLoop_attempts_le (cfg : RetryConfig) (responder : Nat → AttemptOutcome) :
    ∀ fuel attempt delaysRev lastErr,
      (fetchLoop cfg responder fuel attempt delaysRev lastErr).attempts ≤
        attempt + fuel - 1 := by
  intro fuel
  induction fuel with
  | zero => intro attempt delaysRev lastErr; simp [fetchLoop]
  | succ n ih =>
    intro attempt delaysRev lastErr
    cases hm : failureMessage (responder attempt) with
    | none => simp [fetchLoop, hm]
    | some msg =>
      by_cases hr : shouldRetryB cfg attempt msg = true
      · have hrec := ih (attempt + 1) (calculateDelay attempt cfg :: delaysRev) (some msg)
        simp only [fetchLoop, hm, hr, if_true]
        omega
      · simp [fetchLoop, hm, hr]

/-! ## C1 through C3: the retry engine -/

/-- C1: for every RetryPolicy and 1-indexed attempt number n, the backoff
delay equals min(baseDelay * backoffMultiplier ^ (n - 1), maxDelay); with
the default policy, attempts 1 through 4 yield delays 1000, 2000, 4000,
8000 ms, the delay is capped at 10000 ms from attempt 5 on, and the delays
an all-retryable-failure run actually sleeps are exactly the formula values
for attempts 1 through maxRetries. -/
theorem c1_backoff_delay_formula :
    (∀ (cfg : RetryConfig) (n : Nat),
        calculateDelay n cfg =
          min (cfg.baseDelay * cfg.backoffMultiplier ^ (n - 1)) cfg.maxDelay) ∧
    (List.map (fun n => calculateDelay n DEFAULT_RETRY_CONFIG) [1, 2, 3, 4] =
        [1000, 2000, 4000, 8000]) ∧
    (∀ n, 5 ≤ n → calculateDelay n DEFAULT_RETRY_CONFIG = 10000) ∧
    (∀ (cfg : RetryConfig) (responder : Nat → AttemptOutcome),
        (∀ k, isRetryableFailure cfg (responder k) = true) →
        (fetchWithRetry cfg responder).delays =
          (List.range' 1 cfg.maxRetries).map (fun i => calculateDelay i cfg)) := by
  refine ⟨fun cfg n => rfl, by decide, ?_, ?_⟩
  · intro n hn
    have h4 : (2 : Nat) ^ 4 ≤ 2 ^ (n - 1) :=
      Nat.pow_le_pow_right (by norm_num) (by omega)
    have hbig : 10000 ≤ 1000 * 2 ^ (n - 1) := by
      calc (10000 : Nat) ≤ 1000 * 2 ^ 4 := by norm_num
        _ ≤ 1000 * 2 ^ (n - 1) := Nat.mul_le_mul_left 1000 h4
    simp only [calculateDelay, DEFAULT_RETRY_CONFIG]
    exact min_eq_right hbig
  · intro cfg responder hfail
    have h := (fetchLoop_allFail cfg responder hfail (cfg.maxRetries + 1) 1 [] none
      (by omega) (by omega)).2.1
    simpa [fetchWithRetry] using h

/-- Witness for C1: the cap holds at attempt 6, and the default run against
an always-503 endpoint sleeps exactly the delays 1000, 2000, 4000 ms. -/
theorem c1_backoff_delay_formula_witness :
    calculateDelay 6 DEFAULT_RETRY_CONFIG = 10000 ∧
    (fetchWithRetry DEFAULT_RETRY_CONFIG resp503).delays = [1000, 2000, 4000] := by
  constructor
  · exact c1_backoff_delay_formula.2.2.1 6 (by norm_num)
  · have h := c1_backoff_delay_formula.2.2.2 DEFAULT_RETRY_CONFIG resp503
      (fun k => by simp only [resp503]; decide)
    rw [h]
    decide

/-- C2: when every attempt fails with an error the retry predicate accepts,
fetchWithRetry performs exactly maxRetries + 1 attempts and then fails with
a terminal error; and no run whatsoever performs more than maxRetries + 1
attempts. -/
theorem c2_retry_exhaustion_bound :
    (∀ (cfg : RetryConfig) (responder : Nat → AttemptOutcome),
        (∀ k, isRetryableFailure cfg (responder k) = true) →
        (fetchWithRetry cfg responder).attempts = cfg.maxRetries + 1 ∧
        ∃ e, (fetchWithRetry cfg responder).result = Except.error e) ∧
    (∀ (cfg : RetryConfig) (responder : Nat → AttemptOutcome),
        (fetchWithRetry cfg responder).attempts ≤ cfg.maxRetries + 1) := by
  constructor
  · intro cfg responder hfail
    have h := fetchLoop_allFail cfg responder hfail (cfg.maxRetries + 1) 1 [] none
      (by omega) (by omega)
    exact ⟨h.1, h.2.2⟩
  · intro cfg responder
    have h := fetchLoop_attempts_le cfg responder (cfg.maxRetries + 1) 1 [] none
    calc (fetchWithRetry cfg responder).attempts ≤ 1 + (cfg.maxRetries + 1) - 1 := h
      _ = cfg.maxRetries + 1 := by omega

/-- Witness for C2: an endpoint that always answers HTTP 503, under the
default policy (maxRetries = 3), is attempted exactly 4 times and the call
ends in a terminal error. -/
theorem c2_retry_exhaustion_bound_witness :
    (fetchWithRetry DEFAULT_RETRY_CONFIG resp503).attempts = 4 ∧
    ∃ e, (fetchWithRetry DEFAULT_RETRY_CONFIG resp503).result = Except.error e :=
  c2_retry_exhaustion_bound.1 DEFAULT_RETRY_CONFIG resp503 (fun k => by simp only [resp503]; decide)

/-- C3 (code bug): an endpoint that always answers HTTP 405 is retried and
attempted 4 times under the default policy — the thrown 4xx error is caught
by the catch block of the same try, and the default retry predicate accepts
the message HTTP 405: Method Not Allowed because it contains the character
5 — while an endpoint that always answers HTTP 404 fails after exactly one
attempt, as the claim and the comment in the source (4xx is never retried)
state for every 4xx. -/
theorem c3_http4xx_attempts :
    (fetchWithRetry DEFAULT_RETRY_CONFIG resp405).attempts = 4 ∧
    (fetchWithRetry DEFAULT_RETRY_CONFIG resp404).attempts = 1 := by
  constructor <;> decide

/-! ## Lemmas about the reconstruction loop -/

/-- A loop iteration whose non-empty batch holds no record of the target
miner, with the batch minimum below the current cursor, advances the cursor
to that minimum, keeps the accumulator, counts the attempt, and continues
the loop. -/
theorem minerFetchStep_zero_match (ops : RecordOps α) (batchSizeOf : Nat → Nat)
    (fetcher : Nat → Nat → Except Unit (List α)) (address : String) (limit : Nat)
    (st : MinerLoopState α) (batch : List α) (c : Nat)
    (hlen : st.acc.length < limit) (hatt : st.attempts < 5)
    (hfetch : fetcher (st.attempts + 1) (batchSizeOf (st.attempts + 1)) = Except.ok batch)
    (hbne : batch ≠ [])
    (hfilt : filterForMiner ops address st.cursor batch = [])
    (hcur : st.cursor = some c)
    (hlt : minHeightOf ops batch < c) :
    minerFetchStep ops batchSizeOf fetcher address limit st =
      StepOutcome.next
        { acc := st.acc, cursor := some (minHeightOf ops batch),
          attempts := st.attempts + 1 } := by
  have hbe : batch.isEmpty = false := by simp [List.isEmpty_iff, hbne]
  have hca : cursorAdvances st.cursor (minHeightOf ops batch) = true := by
    rw [hcur]; simp [cursorAdvances, hlt]
  have hnle : ¬ limit ≤ st.acc.length := by omega
  simp [minerFetchStep, finishIteration, addNewRecords, hfetch, hbe, hfilt, hca, hlen,
    hatt, hnle]

/-- A loop iteration breaks only because the accumulated count reached the
limit, the attempt cap (5) was reached, the fetched page was empty, or the
cursor made no height progress against the fetched page. -/
theorem minerFetchStep_halt_cases (ops : RecordOps α) (batchSizeOf : Nat → Nat)
    (fetcher : Nat → Nat → Except Unit (List α)) (address : String) (limit : Nat)
    (st st' : MinerLoopState α)
    (h : minerFetchStep ops batchSizeOf fetcher address limit st = StepOutcome.halt st') :
    limit ≤ st'.acc.length ∨ 5 ≤ st'.attempts ∨
      ∃ batch,
        fetcher (st.attempts + 1) (batchSizeOf (st.attempts + 1)) = Except.ok batch ∧
        (batch = [] ∨ cursorAdvances st.cursor (minHeightOf ops batch) = false) := by
  simp only [minerFetchStep] at h
  by_cases hcond : st.acc.length < limit ∧ st.attempts < 5
  case neg =>
    rw [if_neg hcond] at h
    injection h with hst
    subst hst
    have hor : limit ≤ st.acc.length ∨ 5 ≤ st.attempts := by omega
    exact hor.elim Or.inl (fun h2 => Or.inr (Or.inl h2))
  case pos =>
    rw [if_pos hcond] at h
    cases hf : fetcher (st.attempts + 1) (batchSizeOf (st.attempts + 1)) with
    | error e =>
      rw [hf] at h
      exact absurd h (by simp)
    | ok batch =>
      rw [hf] at h
      simp only [] at h
      by_cases hbe : batch.isEmpty = true
      case pos =>
        rw [if_pos hbe] at h
        exact Or.inr (Or.inr ⟨batch, rfl, Or.inl (List.isEmpty_iff.mp hbe)⟩)
      case neg =>
        rw [if_neg hbe] at h
        by_cases h1 : 0 < (filterForMiner ops address st.cursor batch).length ∧
            (addNewRecords ops st.acc (filterForMiner ops address st.cursor batch)).length < limit
        case pos =>
          rw [if_pos h1] at h
          by_cases h2 : cursorAdvances st.cursor (minHeightOf ops batch) = true
          case pos =>
            rw [if_pos h2] at h
            unfold finishIteration at h
            by_cases h3 : limit ≤
                (addNewRecords ops st.acc (filterForMiner ops address st.cursor batch)).length
            case pos =>
              rw [if_pos h3] at h
              injection h with hst
              subst hst
              exact Or.inl h3
            case neg =>
              rw [if_neg h3] at h
              exact absurd h (by simp)
          case neg =>
            rw [if_neg h2] at h
            exact Or.inr (Or.inr ⟨batch, rfl, Or.inr (by simpa using h2)⟩)
        case neg =>
          rw [if_neg h1] at h
          by_cases h4 : (filterForMiner ops address st.cursor batch).isEmpty = true
          case pos =>
            rw [if_pos h4] at h
            by_cases h2 : cursorAdvances st.cursor (minHeightOf ops batch) = true
            case pos =>
              rw [if_pos h2] at h
              unfold finishIteration at h
              by_cases h3 : limit ≤
                  (addNewRecords ops st.acc (filterForMiner ops address st.cursor batch)).length
              case pos =>
                rw [if_pos h3] at h
                injection h with hst
                subst hst
                exact Or.inl h3
              case neg =>
                rw [if_neg h3] at h
                exact absurd h (by simp)
            case neg =>
              rw [if_neg h2] at h
              exact Or.inr (Or.inr ⟨batch, rfl, Or.inr (by simpa using h2)⟩)
          case neg =>
            rw [if_neg h4] at h
            unfold finishIteration at h
            by_cases h3 : limit ≤
                (addNewRecords ops st.acc (filterForMiner ops address st.cursor batch)).length
            case pos =>
              rw [if_pos h3] at h
              injection h with hst
              subst hst
              exact Or.inl h3
            case neg =>
              rw [if_neg h3] at h
              exact absurd h (by simp)

/-! ## C4 and C5: the reconstruction loop -/

/-- C4: in the historical path of getMinerShares, an iteration that fetches
a non-empty batch with zero records of the target miner still advances the
cursor to the minimum height of the unfiltered batch when that minimum is
below the current cursor, and continues; and the loop breaks only when the
accumulated count reached the requested limit, the attempt cap 5 was
reached, the upstream returned an empty page, or no height progress was
made against the current cursor. -/
theorem c4_historical_cursor_progress :
    (∀ (fetcher : Nat → Nat → Except Unit (List Share)) (address : String)
        (limit : Nat) (st : MinerLoopState Share) (batch : List Share) (c : Nat),
        st.acc.length < limit → st.attempts < 5 →
        fetcher (st.attempts + 1) (sharesBatchSize (st.attempts + 1)) = Except.ok batch →
        batch ≠ [] →
        filterForMiner shareOps address st.cursor batch = [] →
        st.cursor = some c →
        minHeightOf shareOps batch < c →
        minerFetchStep shareOps sharesBatchSize fetcher address limit st =
          StepOutcome.next
            { acc := st.acc, cursor := some (minHeightOf shareOps batch),
              attempts := st.attempts + 1 }) ∧
    (∀ (fetcher : Nat → Nat → Except Unit (List Share)) (address : String)
        (limit : Nat) (st st' : MinerLoopState Share),
        minerFetchStep shareOps sharesBatchSize fetcher address limit st =
          StepOutcome.halt st' →
        limit ≤ st'.acc.length ∨ 5 ≤ st'.attempts ∨
          ∃ batch,
            fetcher (st.attempts + 1) (sharesBatchSize (st.attempts + 1)) =
              Except.ok batch ∧
            (batch = [] ∨
              cursorAdvances st.cursor (minHeightOf shareOps batch) = false)) :=
  ⟨fun fetcher address limit st batch c hlen hatt hfetch hbne hfilt hcur hlt =>
      minerFetchStep_zero_match shareOps sharesBatchSize fetcher address limit
        st batch c hlen hatt hfetch hbne hfilt hcur hlt,
    fun fetcher address limit st st' h =>
      minerFetchStep_halt_cases shareOps sharesBatchSize fetcher address limit
        st st' h⟩

/-- Witness for C4: with a cursor at height 100 and a batch holding one
share of another miner at height 50, the step advances the cursor to 50 and
continues; and a step that halts at entry (limit 0) falls under the listed
break causes. -/
theorem c4_historical_cursor_progress_witness :
    minerFetchStep shareOps sharesBatchSize wFetcher "A" 5
        { acc := [], cursor := some 100, attempts := 0 } =
      StepOutcome.next { acc := [], cursor := some 50, attempts := 1 } ∧
    ((0 : Nat) ≤ (MinerLoopState.acc
        (α := Share) { acc := [], cursor := some 100, attempts := 0 }).length ∨
      5 ≤ (MinerLoopState.attempts
        (α := Share) { acc := [], cursor := some 100, attempts := 0 }) ∨
      ∃ batch, wFetcher 1 (sharesBatchSize 1) = Except.ok batch ∧
        (batch = [] ∨ cursorAdvances (some 100) (minHeightOf shareOps batch) = false)) := by
  constructor
  · have h := c4_historical_cursor_progress.1 wFetcher "A" 5
      { acc := [], cursor := some 100, attempts := 0 } [wShare] 100
      (by decide) (by decide) rfl (by decide) (by decide) rfl (by decide)
    simpa using h
  · have h := c4_historical_cursor_progress.2 wFetcher "A" 0
      { acc := [], cursor := some 100, attempts := 0 }
      { acc := [], cursor := some 100, attempts := 0 } (by decide)
    simp at h
    simp [h]

/-- C5 counterexample: with an upstream whose first batch succeeds with one
matching share and whose second batch throws, the loop accumulates that
share and then hits the failure, and the whole operation returns the empty
list — not the accumulated records the claim promises. -/
theorem c5_counterexample_batch_failure_discards :
    (runMinerLoop shareOps sharesBatchSize cexFetcher "M" 5 6
        { acc := [], cursor := some 1000, attempts := 0 }).1.acc = [cexShare] ∧
    (runMinerLoop shareOps sharesBatchSize cexFetcher "M" 5 6
        { acc := [], cursor := some 1000, attempts := 0 }).2 = true ∧
    getMinerSharesHistorical cexFetcher "M" 5 1000 = [] := by
  refine ⟨?_, ?_, ?_⟩ <;> decide

/-- C5 (amended): a single batch fetch failure is swallowed at the level of
the whole operation, not per attempt: the loop aborts on the first failing
batch and the operation returns the empty list, discarding the records
accumulated from earlier successful batches, for the shares loop and the
found-blocks loop alike. -/
theorem c5_batch_failure_aborts :
    (∀ (fetcher : Nat → Nat → Except Unit (List Share)) (address : String)
        (limit fromHeight : Nat),
        (runMinerLoop shareOps sharesBatchSize fetcher address limit 6
            { acc := [], cursor := some fromHeight, attempts := 0 }).2 = true →
        getMinerSharesHistorical fetcher address limit fromHeight = []) ∧
    (∀ (fetcher : Nat → Nat → Except Unit (List FoundBlock)) (address : String)
        (limit : Nat) (fromHeight : Option Nat),
        (runMinerLoop blockOps blocksBatchSize fetcher address limit 6
            { acc := [], cursor := fromHeight, attempts := 0 }).2 = true →
        getMinerFoundBlocks fetcher address limit fromHeight = []) := by
  constructor
  · intro fetcher address limit fromHeight hfailflag
    simp [getMinerSharesHistorical, reconstructMinerRecords, hfailflag]
  · intro fetcher address limit fromHeight hfailflag
    simp [getMinerFoundBlocks, reconstructMinerRecords, hfailflag]

/-- Witness for C5 (amended): an upstream whose every batch throws makes the
loop fail, and the operation returns the empty list. -/
theorem c5_batch_failure_aborts_witness :
    getMinerSharesHistorical failFetcher "X" 3 500 = [] :=
  c5_batch_failure_aborts.1 failFetcher "X" 3 500 (by decide)

/-! ## Lemmas about the object-store upsert -/

/-- Looking the key up after an upsert yields the upserted value. -/
theorem lookupKey_idbPut (st : List (String × β)) (key : String) (v : β) :
    lookupKey (idbPut st key v) key = some v := by
  induction st with
  | nil => simp [idbPut, lookupKey]
  | cons kv rest ih =>
    by_cases hk : kv.1 = key
    · simp [idbPut, hk, lookupKey]
    · simp [idbPut, hk, lookupKey, ih]

/-- Counting a key across a cons. -/
theorem countKey_cons (kv : String × β) (rest : List (String × β)) (key : String) :
    countKey (kv :: rest) key = (if kv.1 = key then 1 else 0) + countKey rest key := by
  by_cases hk : kv.1 = key <;> simp [countKey, List.filter_cons, hk] <;> omega

/-- A key that appears in no entry has count zero. -/
theorem countKey_eq_zero_of_not_mem (st : List (String × β)) (key : String)
    (h : key ∉ st.map Prod.fst) : countKey st key = 0 := by
  induction st with
  | nil => rfl
  | cons kv rest ih =>
    simp only [List.map_cons, List.mem_cons] at h
    push_neg at h
    rw [countKey_cons, if_neg (fun hk => h.1 hk.symm), ih h.2]

/-- Every key of the upserted store is the new key or an old key. -/
theorem mem_keys_idbPut (st : List (String × β)) (key : String) (v : β) (x : String)
    (hx : x ∈ (idbPut st key v).map Prod.fst) : x = key ∨ x ∈ st.map Prod.fst := by
  induction st with
  | nil => simpa [idbPut] using hx
  | cons kv rest ih =>
    by_cases hk : kv.1 = key
    · simp only [idbPut, if_pos hk, List.map_cons, List.mem_cons] at hx
      rcases hx with h1 | h2
      · exact Or.inl h1
      · exact Or.inr (by simp [h2])
    · simp only [idbPut, if_neg hk, List.map_cons, List.mem_cons] at hx
      rcases hx with h1 | h2
      · exact Or.inr (by simp [h1])
      · rcases ih h2 with h3 | h4
        · exact Or.inl h3
        · exact Or.inr (by simp [h4])

/-- The upserted key is a key of the upserted store. -/
theorem mem_keys_idbPut_self (st : List (String × β)) (key : String) (v : β) :
    key ∈ (idbPut st key v).map Prod.fst := by
  induction st with
  | nil => simp [idbPut]
  | cons kv rest ih =>
    by_cases hk : kv.1 = key
    · simp [idbPut, hk]
    · simp only [idbPut, if_neg hk, List.map_cons, List.mem_cons]
      exact Or.inr ih

/-- Upserting preserves uniqueness of keys. -/
theorem nodupKeys_idbPut (st : List (String × β)) (key : String) (v : β)
    (h : (st.map Prod.fst).Nodup) : ((idbPut st key v).map Prod.fst).Nodup := by
  induction st with
  | nil => simp [idbPut]
  | cons kv rest ih =>
    simp only [List.map_cons, List.nodup_cons] at h
    obtain ⟨hnot, hnd⟩ := h
    by_cases hk : kv.1 = key
    · subst hk
      rw [idbPut, if_pos rfl]
      simp only [List.map_cons, List.nodup_cons]
      exact ⟨hnot, hnd⟩
    · simp only [idbPut, if_neg hk, List.map_cons, List.nodup_cons]
      refine ⟨?_, ih hnd⟩
      intro hmem
      rcases mem_keys_idbPut rest key v kv.1 hmem with h1 | h2
      · exact hk h1
      · exact hnot h2

/-- With unique keys, the upserted key has exactly one entry afterwards. -/
theorem countKey_idbPut (st : List (String × β)) (key : String) (v : β)
    (h : (st.map Prod.fst).Nodup) : countKey (idbPut st key v) key = 1 := by
  induction st with
  | nil => simp [idbPut, countKey]
  | cons kv rest ih =>
    simp only [List.map_cons, List.nodup_cons] at h
    obtain ⟨hnot, hnd⟩ := h
    by_cases hk : kv.1 = key
    · rw [idbPut, if_pos hk, countKey_cons, if_pos rfl,
        countKey_eq_zero_of_not_mem rest key (hk ▸ hnot)]
    · rw [idbPut, if_neg hk, countKey_cons, if_neg hk, ih hnd]

/-- Upserting a key that is already present does not grow the store. -/
theorem length_idbPut_of_mem (st : List (String × β)) (key : String) (v : β)
    (h : key ∈ st.map Prod.fst) : (idbPut st key v).length = st.length := by
  induction st with
  | nil => simp at h
  | cons kv rest ih =>
    by_cases hk : kv.1 = key
    · simp [idbPut, hk]
    · simp only [List.map_cons, List.mem_cons] at h
      rcases h with h1 | h2
      · exact absurd h1.symm hk
      · simp [idbPut, hk, ih h2]

/-! ## C6 through C10: storage and orchestrator fallback -/

/-- C6 counterexample: the cached snapshot was written at time 100 and the
refresh that fails and falls back to it resolves at time 120; the
orchestrator reports lastUpdate 120 (the resolution time of the failed
refresh), not the write time 100 the claim promises. -/
theorem c6_counterexample_lastupdate :
    (refreshPoolInfo (Except.error "network error") (some (7, 100)) 120 qsPool).1 =
      { data := some 7, dataUpdatedAt := 120, error := none } ∧
    lastUpdateOf [(refreshPoolInfo (Except.error "network error") (some (7, 100))
        120 qsPool).1.dataUpdatedAt] = some 120 ∧
    decide (lastUpdateOf [(refreshPoolInfo (Except.error "network error")
        (some (7, 100)) 120 qsPool).1.dataUpdatedAt] = some (100 : Int)) = false := by
  refine ⟨?_, ?_, ?_⟩ <;> decide

/-- C6 (amended): when the pool-info fetch fails and a cached snapshot
exists, the orchestrator returns the cached snapshot and leaves the error
field unset, but dataUpdatedAt — hence lastUpdate — is the time the failed
refresh resolved with the cached value, not the cache entry write time;
when no cached value exists the failure is surfaced in the error field
without touching the previous data. -/
theorem c6_cache_fallback_semantics :
    (∀ (α : Type) (e : String) (c : α) (w now : Int) (st : QueryState α),
        (refreshPoolInfo (Except.error e) (some (c, w)) now st).1 =
          { data := some c, dataUpdatedAt := now, error := none }) ∧
    (∀ (α : Type) (e : String) (now : Int) (st : QueryState α),
        (refreshPoolInfo (Except.error e) (none : Option (α × Int)) now st).1 =
          { st with error := some e }) ∧
    (∀ t : Int, t ≠ 0 → lastUpdateOf [t] = some t) := by
  refine ⟨fun α e c w now st => rfl, fun α e now st => rfl, ?_⟩
  intro t ht
  have hb : (t != 0) = true := by simpa using ht
  simp [lastUpdateOf, List.filter, hb]

/-- Witness for C6 (amended): at the counterexample input the fallback
state and the lastUpdate aggregation are as the amended claim states. -/
theorem c6_cache_fallback_semantics_witness :
    (refreshPoolInfo (Except.error "network error") (some (7, 100)) 120 qsPool).1 =
      { data := some 7, dataUpdatedAt := 120, error := none } ∧
    lastUpdateOf [120] = some 120 :=
  ⟨c6_cache_fallback_semantics.1 Nat "network error" 7 100 120 qsPool,
    c6_cache_fallback_semantics.2.2 120 (by decide)⟩

/-- C7: storing two shares with the same dedup key (apiUrl, side_height,
template_id) into a store with unique keys leaves exactly one entry under
that key, holding the later-written share; the second put replaces rather
than appends (the store does not grow at the second write). -/
theorem c7_share_dedup_overwrite :
    ∀ (apiUrl : String) (s1 s2 : Share) (now : Int)
      (st : List (String × StoredData Share)),
      (st.map Prod.fst).Nodup →
      shareKey apiUrl s1 = shareKey apiUrl s2 →
      ∃ st', storeShares (some ()) apiUrl [s1, s2] now st = Except.ok st' ∧
        countKey st' (shareKey apiUrl s2) = 1 ∧
        lookupKey st' (shareKey apiUrl s2) = some (shareEntry apiUrl s2 now) ∧
        st'.length =
          (idbPut st (shareKey apiUrl s1) (shareEntry apiUrl s1 now)).length := by
  intro apiUrl s1 s2 now st hnd hkeq
  refine ⟨idbPut (idbPut st (shareKey apiUrl s1) (shareEntry apiUrl s1 now))
      (shareKey apiUrl s2) (shareEntry apiUrl s2 now), rfl, ?_, ?_, ?_⟩
  · exact countKey_idbPut _ _ _ (nodupKeys_idbPut st _ _ hnd)
  · exact lookupKey_idbPut _ _ _
  · exact length_idbPut_of_mem _ _ _ (hkeq ▸ mem_keys_idbPut_self st _ _)

/-- Witness for C7: two shares with key share_u_100_t stored into the empty
store leave one entry, holding the second share. -/
theorem c7_share_dedup_overwrite_witness :
    ∃ st', storeShares (some ()) "u" [s1w, s2w] 5 [] = Except.ok st' ∧
      countKey st' (shareKey "u" s2w) = 1 ∧
      lookupKey st' (shareKey "u" s2w) = some (shareEntry "u" s2w 5) ∧
      st'.length = (idbPut [] (shareKey "u" s1w) (shareEntry "u" s1w 5)).length :=
  c7_share_dedup_overwrite "u" s1w s2w 5 [] (by simp) (by decide)

/-- Stepping the cleanup loop over the metadata store: it is skipped. -/
theorem cleanupLoop_cons_metadata (now : Int) (rest : List Partition)
    (st : Partition → List (String × StoredData α)) :
    cleanupLoop now (Partition.metadata :: rest) st = cleanupLoop now rest st := by
  simp [cleanupLoop]

/-- Stepping the cleanup loop over a non-metadata store whose cursor loop
deleted nothing (and so threw nothing): the filtered list is written back
and the loop moves on. -/
theorem cleanupLoop_cons_skip (now : Int) (p : Partition) (rest : List Partition)
    (st : Partition → List (String × StoredData α))
    (hp : p ≠ Partition.metadata)
    (hr : (cleanupCursorLoop now p (st p)).2 = false) :
    cleanupLoop now (p :: rest) st =
      cleanupLoop now rest (setStore st p (cleanupCursorLoop now p (st p)).1) := by
  simp [cleanupLoop, hp, hr]

/-- Stepping the cleanup loop over a non-metadata store whose cursor loop
deleted at least one entry: the deletions are committed and the thrown
InvalidStateError ends the run. -/
theorem cleanupLoop_cons_throw (now : Int) (p : Partition) (rest : List Partition)
    (st : Partition → List (String × StoredData α))
    (hp : p ≠ Partition.metadata)
    (hr : (cleanupCursorLoop now p (st p)).2 = true) :
    cleanupLoop now (p :: rest) st =
      setStore st p (cleanupCursorLoop now p (st p)).1 := by
  simp [cleanupLoop, hp, hr]

/-- The metadata store keeps its entries across any partition list the
cleanup loop walks: the loop skips metadata and only ever replaces the list
of the non-metadata partition it is processing. -/
theorem cleanupLoop_metadata (now : Int) :
    ∀ (ps : List Partition) (st : Partition → List (String × StoredData α)),
      cleanupLoop now ps st Partition.metadata = st Partition.metadata := by
  intro ps
  induction ps with
  | nil => intro st; rfl
  | cons p rest ih =>
    intro st
    by_cases hp : p = Partition.metadata
    · rw [hp, cleanupLoop_cons_metadata, ih]
    · have hne : Partition.metadata ≠ p := fun h => hp h.symm
      by_cases hr : (cleanupCursorLoop now p (st p)).2 = true
      · rw [cleanupLoop_cons_throw now p rest st hp hr]
        simp [setStore, hne]
      · rw [cleanupLoop_cons_skip now p rest st hp (by simpa using hr), ih]
        simp [setStore, hne]

/-- A partition the cleanup loop never walks keeps its entries. -/
theorem cleanupLoop_not_mem (now : Int) :
    ∀ (ps : List Partition) (st : Partition → List (String × StoredData α))
      (q : Partition), q ∉ ps → cleanupLoop now ps st q = st q := by
  intro ps
  induction ps with
  | nil => intro st q _; rfl
  | cons p rest ih =>
    intro st q hq
    simp only [List.mem_cons] at hq
    push_neg at hq
    by_cases hp : p = Partition.metadata
    · rw [hp, cleanupLoop_cons_metadata, ih st q hq.2]
    · by_cases hr : (cleanupCursorLoop now p (st p)).2 = true
      · rw [cleanupLoop_cons_throw now p rest st hp hr]
        simp [setStore, hq.1]
      · rw [cleanupLoop_cons_skip now p rest st hp (by simpa using hr),
          ih _ q hq.2]
        simp [setStore, hq.1]

/-- C8 counterexample: at cleanup instant 100 * 86400000, the expired
pool-info entry makes the pool-info cursor loop delete and then throw, so
the run never reaches the shares store: the 31-day-old shares entry —
strictly older than the 30-day retention — survives the cleanup() run the
claim says removes it. And at cleanup instant 2592000000 (exactly 30 days),
the shares entry written at timestamp 0 sits exactly at the cutoff — not
strictly older than the retention period — yet the cursor loop deletes it,
because the IndexedDB range is an inclusive upper bound. -/
theorem c8_cleanup_counterexample :
    cleanup (100 * 86400000) cexStores Partition.poolInfo = [] ∧
    cleanup (100 * 86400000) cexStores Partition.shares =
      [("a", entry31), ("b", entry29)] ∧
    decide (entry31.timestamp <
      100 * 86400000 - RETENTION_PERIODS Partition.shares) = true ∧
    cleanupCursorLoop 2592000000 Partition.shares [("k", boundaryEntry)] =
      (([] : List (String × StoredData Nat)), true) ∧
    decide (boundaryEntry.timestamp <
      2592000000 - RETENTION_PERIODS Partition.shares) = false := by
  refine ⟨?_, ?_, ?_, ?_, ?_⟩ <;> decide

/-- C8 (amended): a cleanup() run walks the partitions in schema order and
skips metadata. In a partition whose cursor loop runs, exactly the entries
with write timestamp at or before the cutoff now - retention are deleted
(the IndexedDB upper bound is inclusive, so an entry exactly retention-old
is deleted too) and the strictly newer ones are kept; the loop throws
exactly when it deleted at least one entry, and that throw ends the run, so
every partition after the first one with a deletion keeps all its entries.
When the partitions before shares have nothing to delete, the shares store
is reached and filtered: there a 31-day-old entry is removed and a
29-day-old entry kept under the 30-day retention. -/
theorem c8_cleanup_retention :
    (∀ (α : Type) (now : Int) (p : Partition)
        (entries : List (String × StoredData α)) (kv : String × StoredData α),
        kv ∈ (cleanupCursorLoop now p entries).1 ↔
          kv ∈ entries ∧ now - RETENTION_PERIODS p < kv.2.timestamp) ∧
    (∀ (α : Type) (now : Int) (p : Partition)
        (entries : List (String × StoredData α)),
        (cleanupCursorLoop now p entries).2 =
          entries.any (fun kv => decide (kv.2.timestamp ≤ now - RETENTION_PERIODS p))) ∧
    (∀ (α : Type) (now : Int) (st : Partition → List (String × StoredData α)),
        cleanup now st Partition.metadata = st Partition.metadata) ∧
    (∀ (α : Type) (now : Int) (st : Partition → List (String × StoredData α)),
        (cleanupCursorLoop now Partition.poolInfo (st Partition.poolInfo)).2 = true →
        ∀ q, q ≠ Partition.poolInfo → cleanup now st q = st q) ∧
    (∀ (α : Type) (now : Int) (st : Partition → List (String × StoredData α)),
        (cleanupCursorLoop now Partition.poolInfo (st Partition.poolInfo)).2 = false →
        (cleanupCursorLoop now Partition.minerInfo (st Partition.minerInfo)).2 = false →
        cleanup now st Partition.shares =
          (cleanupCursorLoop now Partition.shares (st Partition.shares)).1) ∧
    (cleanup (100 * 86400000) sharesOnlyStores Partition.shares =
      [("b", entry29)]) := by
  refine ⟨?_, ?_, ?_, ?_, ?_, by decide⟩
  · intro α now p entries kv
    simp [cleanupCursorLoop, List.mem_filter]
  · intro α now p entries
    rfl
  · intro α now st
    exact cleanupLoop_metadata now STORES_ORDER st
  · intro α now st hthrew q hq
    show cleanupLoop now STORES_ORDER st q = st q
    rw [STORES_ORDER,
      cleanupLoop_cons_throw now Partition.poolInfo _ st (by decide) hthrew]
    simp [setStore, hq]
  · intro α now st hpool hminer
    show cleanupLoop now STORES_ORDER st Partition.shares = _
    rw [STORES_ORDER,
      cleanupLoop_cons_skip now Partition.poolInfo _ st (by decide) hpool]
    set st1 := setStore st Partition.poolInfo
      (cleanupCursorLoop now Partition.poolInfo (st Partition.poolInfo)).1 with hst1
    have h1 : st1 Partition.minerInfo = st Partition.minerInfo := by
      simp [hst1, setStore]
    rw [cleanupLoop_cons_skip now Partition.minerInfo _ st1 (by decide)
      (by rw [h1]; exact hminer)]
    set st2 := setStore st1 Partition.minerInfo
      (cleanupCursorLoop now Partition.minerInfo (st1 Partition.minerInfo)).1 with hst2
    have h2 : st2 Partition.shares = st Partition.shares := by
      simp [hst2, hst1, setStore]
    by_cases hsh :
        (cleanupCursorLoop now Partition.shares (st2 Partition.shares)).2 = true
    · rw [cleanupLoop_cons_throw now Partition.shares _ st2 (by decide) hsh]
      simp [setStore, h2]
    · rw [cleanupLoop_cons_skip now Partition.shares _ st2 (by decide)
        (by simpa using hsh)]
      rw [cleanupLoop_not_mem now
        [Partition.blocks, Partition.payouts, Partition.metadata] _
        Partition.shares (by decide)]
      simp [setStore, h2]

/-- Witness for C8 (amended): with only the two shares entries in the
database the run reaches and filters the shares store, and with the expired
pool-info entry present the run aborts before the shares store, which keeps
its entries. -/
theorem c8_cleanup_retention_witness :
    cleanup (100 * 86400000) sharesOnlyStores Partition.shares =
      (cleanupCursorLoop (100 * 86400000) Partition.shares
        (sharesOnlyStores Partition.shares)).1 ∧
    cleanup (100 * 86400000) cexStores Partition.shares =
      cexStores Partition.shares :=
  ⟨c8_cleanup_retention.2.2.2.2.1 Nat (100 * 86400000) sharesOnlyStores
      (by decide) (by decide),
    c8_cleanup_retention.2.2.2.1 Nat (100 * 86400000) cexStores (by decide)
      Partition.shares (by decide)⟩

/-- C9 (code bug): when the storage backend is unavailable (this.db null),
a put such as storeMinerInfo rejects with the Storage not initialized error
thrown by ensureReady — the silent no-op guard after it is dead code — and
on the happy path (database ready) the put resolves with the upsert and
never throws. -/
theorem c9_put_unavailable_throws :
    (∀ (α : Type) (st : List (String × StoredData α)) (apiUrl address : String)
        (v : α) (now : Int),
        storeMinerInfo none st apiUrl address v now =
          Except.error "Storage not initialized") ∧
    (∀ (α : Type) (st : List (String × StoredData α)) (apiUrl address : String)
        (v : α) (now : Int),
        storeMinerInfo (some ()) st apiUrl address v now =
          Except.ok (idbPut st ("miner_" ++ apiUrl ++ "_" ++ address)
            { id := "miner_" ++ apiUrl ++ "_" ++ address, data := v,
              timestamp := now, lastAccessed := now })) :=
  ⟨fun _ _ _ _ _ _ => rfl, fun _ _ _ _ _ _ => rfl⟩

/-- Witness for C9: a concrete put against the unavailable backend rejects
with the ensureReady error. -/
theorem c9_put_unavailable_throws_witness :
    storeMinerInfo none ([] : List (String × StoredData Nat)) "u" "a" 0 5 =
      Except.error "Storage not initialized" :=
  c9_put_unavailable_throws.1 Nat [] "u" "a" 0 5

/-- C10: the shares store schema creates only the timestamp and apiUrl
indexes, so getSharesByMiner — which opens the miner_address index — never
resolves with stored shares for any database state, and the orchestrator
cache-fallback path for miner shares never serves cached data. -/
theorem c10_cached_miner_shares_never_served :
    (sharesStoreIndexes.contains "miner_address" = false) ∧
    (∀ (db : Option Unit) (st : List (String × StoredData Share))
        (apiUrl address : String) (limit : Nat),
        exceptIsOk (getSharesByMiner db st apiUrl address limit) = false) ∧
    (∀ (db : Option Unit) (st : List (String × StoredData Share))
        (apiUrl address : String) (limit : Nat) (e : String),
        exceptIsOk (minerSharesFallback db st apiUrl address limit e) = false) := by
  refine ⟨by decide, ?_, ?_⟩
  · intro db st apiUrl address limit
    cases db with
    | none => rfl
    | some u => rfl
  · intro db st apiUrl address limit e
    cases db with
    | none => rfl
    | some u => rfl

/-- Witness for C10: the fallback read against a ready database errors on
the missing index. -/
theorem c10_cached_miner_shares_never_served_witness :
    exceptIsOk (getSharesByMiner (some ()) [] "u" "a" 10) = false :=
  c10_cached_miner_shares_never_served.2.1 (some ()) [] "u" "a" 10

end P2Pool
